import Mathlib

/-!
Verification of the magnolia-resourcespace client library.

This file shallowly embeds the security-relevant parts of the TypeScript
source (query building and signing, response normalization, the user
provisioning/update capability, the batch limiter, and the capability
attachment mechanism) and proves the frozen specification claims about
them. Remote calls are modelled by an environment function giving the
outcome of each successive `makeRequest`, and each operation is embedded
as a function returning the trace of issued requests (and sleeps)
together with its outcome.
-/

/-- Runtime values of the TypeScript parameter maps
`Record<string, string | number | boolean>`. The source guards against
`null` and `undefined` entries at runtime, so both are included.
JS numbers are modelled as integers: every number the library puts into a
parameter map is integral. -/
inductive JSVal where
  | str (s : String)
  | num (n : Int)
  | bool (b : Bool)
  | null
  | undef
deriving DecidableEq, Repr

/-- JS `String(value)` for the values above (`String(5) = "5"`,
booleans render as `true`/`false`). -/
def jsValToString : JSVal → String
  | JSVal.str s => s
  | JSVal.num n => toString n
  | JSVal.bool b => if b then "true" else "false"
  | JSVal.null => "null"
  | JSVal.undef => "undefined"

/-- UTF-8 encoding of one character, as byte values. -/
def utf8EncodeChar (c : Char) : List Nat :=
  let n := c.toNat
  if n < 128 then [n]
  else if n < 2048 then [192 + n / 64, 128 + n % 64]
  else if n < 65536 then [224 + n / 4096, 128 + (n / 64) % 64, 128 + n % 64]
  else [240 + n / 262144, 128 + (n / 4096) % 64, 128 + (n / 64) % 64, 128 + n % 64]

/-- UTF-8 encoding of a string, as byte values. -/
def utf8Bytes (s : String) : List Nat :=
  s.toList.flatMap utf8EncodeChar

/-- Characters `URLSearchParams` leaves unescaped
(application/x-www-form-urlencoded: alphanumerics and `*-._`). -/
def isUrlencodedSafe (c : Char) : Bool :=
  c.isAlphanum || c = '*' || c = '-' || c = '.' || c = '_'

/-- Upper-case hex digit for a value below 16. -/
def hexDigitUpper (n : Nat) : Char :=
  if n < 10 then Char.ofNat (48 + n) else Char.ofNat (55 + n)

/-- Lower-case hex digit for a value below 16. -/
def hexDigitLower (n : Nat) : Char :=
  if n < 10 then Char.ofNat (48 + n) else Char.ofNat (87 + n)

/-- Percent-encoding of one byte, e.g. `%2F`. -/
def percentByte (b : Nat) : String :=
  String.mk ['%', hexDigitUpper (b / 16), hexDigitUpper (b % 16)]

/-- `application/x-www-form-urlencoded` encoding of a string, as performed
by `URLSearchParams.toString()`: space becomes `+`, safe characters stay,
all other characters are percent-encoded as UTF-8. -/
def formEncode (s : String) : String :=
  String.join (s.toList.map fun c =>
    if c = ' ' then "+"
    else if isUrlencodedSafe c then String.singleton c
    else String.join ((utf8EncodeChar c).map percentByte))

/-- The entry list appended to the `URLSearchParams` by
`buildQueryString` (src/src/utils/query-builder.ts lines 9-23): `user`
first, then each parameter in insertion order, skipping entries whose
value is `undefined` or `null`. -/
def buildQueryEntries (user : String) (params : List (String × JSVal)) :
    List (String × String) :=
  ("user", user) :: params.filterMap fun kv =>
    match kv.2 with
    | JSVal.null => none
    | JSVal.undef => none
    | v => some (kv.1, jsValToString v)

/-- `buildQueryString` (src/src/utils/query-builder.ts lines 9-23): the
`URLSearchParams.toString()` serialization of the entries. -/
def buildQueryString (user : String) (params : List (String × JSVal)) : String :=
  String.intercalate "&"
    ((buildQueryEntries user params).map fun kv =>
      formEncode kv.1 ++ "=" ++ formEncode kv.2)

-- SHA-256, as used by `crypto.createHash('sha256')` in
-- src/src/utils/signature.ts. Words are Nat values below 2^32.

/-- Truncation to a 32-bit word. -/
def w32 (n : Nat) : Nat := n % 4294967296

/-- 32-bit right rotation. -/
def rotr32 (n x : Nat) : Nat := w32 (x / 2 ^ n + x * 2 ^ (32 - n))

/-- 32-bit logical right shift. -/
def shr32 (n x : Nat) : Nat := x / 2 ^ n

/-- SHA-256 Ch function. -/
def sha256Ch (x y z : Nat) : Nat :=
  Nat.xor (Nat.land x y) (Nat.land (Nat.xor x 4294967295) z)

/-- SHA-256 Maj function. -/
def sha256Maj (x y z : Nat) : Nat :=
  Nat.xor (Nat.xor (Nat.land x y) (Nat.land x z)) (Nat.land y z)

/-- SHA-256 big sigma 0. -/
def sha256BSig0 (x : Nat) : Nat :=
  Nat.xor (Nat.xor (rotr32 2 x) (rotr32 13 x)) (rotr32 22 x)

/-- SHA-256 big sigma 1. -/
def sha256BSig1 (x : Nat) : Nat :=
  Nat.xor (Nat.xor (rotr32 6 x) (rotr32 11 x)) (rotr32 25 x)

/-- SHA-256 small sigma 0. -/
def sha256SSig0 (x : Nat) : Nat :=
  Nat.xor (Nat.xor (rotr32 7 x) (rotr32 18 x)) (shr32 3 x)

/-- SHA-256 small sigma 1. -/
def sha256SSig1 (x : Nat) : Nat :=
  Nat.xor (Nat.xor (rotr32 17 x) (rotr32 19 x)) (shr32 10 x)

/-- SHA-256 round constants (FIPS 180-4 section 4.2.2), in decimal. -/
def sha256K : List Nat :=
  [1116352408, 1899447441, 3049323471,
   3921009573, 961987163, 1508970993,
   2453635748, 2870763221, 3624381080,
   310598401, 607225278, 1426881987,
   1925078388, 2162078206, 2614888103,
   3248222580, 3835390401, 4022224774,
   264347078, 604807628, 770255983,
   1249150122, 1555081692, 1996064986,
   2554220882, 2821834349, 2952996808,
   3210313671, 3336571891, 3584528711,
   113926993, 338241895, 666307205,
   773529912, 1294757372, 1396182291,
   1695183700, 1986661051, 2177026350,
   2456956037, 2730485921, 2820302411,
   3259730800, 3345764771, 3516065817,
   3600352804, 4094571909, 275423344,
   430227734, 506948616, 659060556,
   883997877, 958139571, 1322822218,
   1537002063, 1747873779, 1955562222,
   2024104815, 2227730452, 2361852424,
   2428436474, 2756734187, 3204031479,
   3329325298]

/-- SHA-256 initial hash state. -/
structure Sha256State where
  a : Nat
  b : Nat
  c : Nat
  d : Nat
  e : Nat
  f : Nat
  g : Nat
  h : Nat
deriving DecidableEq, Repr

/-- SHA-256 initial hash values (FIPS 180-4 section 5.3.3), in decimal. -/
def sha256H0 : Sha256State :=
  ⟨1779033703, 3144134277, 1013904242, 2773480762,
   1359893119, 2600822924, 528734635, 1541459225⟩

/-- One step of the SHA-256 message-schedule extension. -/
def sha256ScheduleStep (ws : Array Nat) : Array Nat :=
  ws.push (w32 (sha256SSig1 (ws.getD (ws.size - 2) 0) + ws.getD (ws.size - 7) 0 +
    sha256SSig0 (ws.getD (ws.size - 15) 0) + ws.getD (ws.size - 16) 0))

/-- Extend a 16-word block to the 64-word message schedule. -/
def sha256Schedule (block : List Nat) : List Nat :=
  ((List.range 48).foldl (fun acc _ => sha256ScheduleStep acc) (Array.mk block)).toList

/-- One SHA-256 compression round; the pair carries `(K i, W i)`. -/
def sha256Round (s : Sha256State) (kw : Nat × Nat) : Sha256State :=
  let t1 := w32 (s.h + sha256BSig1 s.e + sha256Ch s.e s.f s.g + kw.1 + kw.2)
  let t2 := w32 (sha256BSig0 s.a + sha256Maj s.a s.b s.c)
  ⟨w32 (t1 + t2), s.a, s.b, s.c, w32 (s.d + t1), s.e, s.f, s.g⟩

/-- Process one 64-byte block (given as 16 words). -/
def sha256Block (st : Sha256State) (block : List Nat) : Sha256State :=
  let s := ((sha256K.zip (sha256Schedule block)).foldl sha256Round st)
  ⟨w32 (st.a + s.a), w32 (st.b + s.b), w32 (st.c + s.c), w32 (st.d + s.d),
   w32 (st.e + s.e), w32 (st.f + s.f), w32 (st.g + s.g), w32 (st.h + s.h)⟩

/-- Group a byte list into 4-byte big-endian words. -/
def bytesToWords : List Nat → List Nat
  | b0 :: b1 :: b2 :: b3 :: rest =>
    (((b0 * 256 + b1) * 256 + b2) * 256 + b3) :: bytesToWords rest
  | _ => []

/-- Split a byte list into 64-byte chunks. -/
def toChunks64 : List Nat → List (List Nat)
  | [] => []
  | b :: bs => ((b :: bs).take 64) :: toChunks64 ((b :: bs).drop 64)
termination_by bs => bs.length
decreasing_by simp [List.length_drop]; omega

/-- Big-endian 8-byte encoding of a length value. -/
def lenBytes8 (n : Nat) : List Nat :=
  [n / 2 ^ 56 % 256, n / 2 ^ 48 % 256, n / 2 ^ 40 % 256, n / 2 ^ 32 % 256,
   n / 2 ^ 24 % 256, n / 2 ^ 16 % 256, n / 2 ^ 8 % 256, n % 256]

/-- SHA-256 padding: append `0x80`, zeros to 56 mod 64, then the
64-bit big-endian bit length. -/
def sha256Pad (msg : List Nat) : List Nat :=
  let r := (msg.length + 1) % 64
  let k := (56 + 64 - r) % 64
  msg ++ [128] ++ List.replicate k 0 ++ lenBytes8 (msg.length * 8)

/-- 8-hex-digit lower-case rendering of a 32-bit word. -/
def wordToHex (n : Nat) : String :=
  String.mk ((List.range 8).map fun i => hexDigitLower (n / 16 ^ (7 - i) % 16))

/-- SHA-256 digest of a byte list as a lower-case hex string. -/
def sha256HexOfBytes (msg : List Nat) : String :=
  let st := (toChunks64 (sha256Pad msg)).foldl
    (fun st chunk => sha256Block st (bytesToWords chunk)) sha256H0
  String.join ([st.a, st.b, st.c, st.d, st.e, st.f, st.g, st.h].map wordToHex)

/-- SHA-256 digest of a string (UTF-8), lower-case hex. -/
def sha256Hex (s : String) : String :=
  sha256HexOfBytes (utf8Bytes s)

/-- `generateSignature` (src/src/utils/signature.ts lines 13-18):
SHA-256 of the concatenation of the secret and the query string,
rendered as lower-case hex. -/
def generateSignature (secret queryString : String) : String :=
  sha256Hex (secret ++ queryString)

/-- The two authentication modes (src/src/core/types.ts line 5). -/
inductive AuthMode where
  | apiKey
  | sessionKey
deriving DecidableEq, Repr

/-- First value of a key in an entry list, modelling property lookup in a
JS record (record keys are unique). -/
def lookupVal (params : List (String × JSVal)) (k : String) : Option JSVal :=
  (params.find? fun kv => kv.1 = k).map (·.2)

/-- The entry list of the object-spread `{ function: functionName, ...params }`
(src/src/utils/query-builder.ts line 39): `function` first — a
caller-supplied `function` key would keep this first position while
overriding the value — then the remaining parameters in order. -/
def mergedParams (functionName : String) (params : List (String × JSVal)) :
    List (String × JSVal) :=
  ("function",
    match lookupVal params "function" with
    | some v => v
    | none => JSVal.str functionName) ::
  params.filter fun kv => kv.1 ≠ "function"

/-- `buildSignedQuery` (src/src/utils/query-builder.ts lines 32-52):
builds the canonical query without any auth-mode marker, signs it, and
only then — in session-key mode — appends the literal
`&authmode=sessionkey` suffix. Returns `(query, sign)`. -/
def buildSignedQuery (user secret : String) (authMode : AuthMode)
    (functionName : String) (params : List (String × JSVal)) : String × String :=
  let allParams := mergedParams functionName params
  let queryForSignature := buildQueryString user allParams
  let sign := generateSignature secret queryForSignature
  let query :=
    if authMode = AuthMode.sessionKey
    then queryForSignature ++ "&authmode=sessionkey"
    else queryForSignature
  (query, sign)

-- Response normalization (src/src/utils/response.ts).

/-- JSON-compatible runtime values, the possible shapes of a normalized
ResourceSpace response. Numbers are modelled as integers (every value the
claims exercise is integral; non-integral JSON numerals are outside the
model and make `jsonParse` fail). -/
inductive JValue where
  | null
  | bool (b : Bool)
  | num (n : Int)
  | str (s : String)
  | arr (elems : List JValue)
  | obj (fields : List (String × JValue))
deriving Repr

/-- Property lookup on an object entry list (JS record keys are unique;
the first match is taken). -/
def lookupField (fields : List (String × JValue)) (k : String) : Option JValue :=
  (fields.find? fun kv => kv.1 = k).map (·.2)

/-- The opening-brace character, written by code point to keep string
literals brace-free. -/
def lbrace : Char := Char.ofNat 123

/-- The closing-brace character. -/
def rbrace : Char := Char.ofNat 125

/-- JSON whitespace. -/
def isJsonWs (c : Char) : Bool :=
  c = ' ' || c = '\t' || c = '\n' || c = '\r'

/-- Drop leading JSON whitespace. -/
def skipWs (cs : List Char) : List Char :=
  cs.dropWhile isJsonWs

/-- Numeric value of a decimal digit run. -/
def digitsToNat (ds : List Char) : Nat :=
  ds.foldl (fun a c => a * 10 + (c.toNat - 48)) 0

/-- Value of a hex digit, if the character is one. -/
def hexVal (h : Char) : Option Nat :=
  if h.isDigit then some (h.toNat - 48)
  else if 'a' ≤ h && h ≤ 'f' then some (h.toNat - 87)
  else if 'A' ≤ h && h ≤ 'F' then some (h.toNat - 55)
  else none

/-- Translation of a one-character JSON escape. -/
def jsonEscChar (e : Char) : Option Char :=
  if e = '"' then some '"'
  else if e = '\\' then some '\\'
  else if e = '/' then some '/'
  else if e = 'b' then some (Char.ofNat 8)
  else if e = 'f' then some (Char.ofNat 12)
  else if e = 'n' then some '\n'
  else if e = 'r' then some '\r'
  else if e = 't' then some '\t'
  else none

/-- Parse a JSON string body after the opening quote, handling the JSON
escape sequences; returns the string and the remaining input. -/
def parseJsonStringBody : List Char → Option (String × List Char)
  | [] => none
  | '"' :: rest => some ("", rest)
  | '\\' :: [] => none
  | '\\' :: 'u' :: h1 :: h2 :: h3 :: h4 :: rest3 =>
    (match hexVal h1, hexVal h2, hexVal h3, hexVal h4 with
     | some v1, some v2, some v3, some v4 =>
       match parseJsonStringBody rest3 with
       | some (s, rem) =>
         some (String.singleton (Char.ofNat (((v1 * 16 + v2) * 16 + v3) * 16 + v4)) ++ s, rem)
       | none => none
     | _, _, _, _ => none)
  | '\\' :: e :: rest2 =>
    (match jsonEscChar e with
     | some ch =>
       match parseJsonStringBody rest2 with
       | some (s, rem) => some (String.singleton ch ++ s, rem)
       | none => none
     | none => none)
  | c :: rest =>
    match parseJsonStringBody rest with
    | some (s, rem) => some (String.singleton c ++ s, rem)
    | none => none

/-- Parse an optionally-signed integral JSON numeral; fails on a
fractional part or exponent (outside the integer model). -/
def parseJsonNumber (cs : List Char) : Option (Int × List Char) :=
  let signed :=
    match cs with
    | '-' :: rest => (true, rest)
    | _ => (false, cs)
  let ds := signed.2.takeWhile Char.isDigit
  let rest := signed.2.dropWhile Char.isDigit
  if ds.isEmpty then none
  else
    match rest with
    | '.' :: _ => none
    | 'e' :: _ => none
    | 'E' :: _ => none
    | _ =>
      let n : Int := Int.ofNat (digitsToNat ds)
      some (if signed.1 then -n else n, rest)

mutual

/-- Parse one JSON value; the fuel bounds recursion depth and is
instantiated with the input length plus one, which always suffices
because every recursive call follows the consumption of at least one
character. -/
def parseJsonValue : Nat → List Char → Option (JValue × List Char)
  | 0, _ => none
  | fuel + 1, cs0 =>
    match skipWs cs0 with
    | [] => none
    | c :: rest =>
      if c = 'n' then
        match rest with
        | 'u' :: 'l' :: 'l' :: rem => some (JValue.null, rem)
        | _ => none
      else if c = 't' then
        match rest with
        | 'r' :: 'u' :: 'e' :: rem => some (JValue.bool true, rem)
        | _ => none
      else if c = 'f' then
        match rest with
        | 'a' :: 'l' :: 's' :: 'e' :: rem => some (JValue.bool false, rem)
        | _ => none
      else if c = '"' then
        match parseJsonStringBody rest with
        | some (s, rem) => some (JValue.str s, rem)
        | none => none
      else if c = '[' then
        match skipWs rest with
        | ']' :: rem => some (JValue.arr [], rem)
        | _ => none
      else if c = lbrace then
        match skipWs rest with
        | c2 :: rem =>
          if c2 = rbrace then some (JValue.obj [], rem)
          else
            match parseJsonMembers fuel (c2 :: rem) with
            | some (fields, rem2) => some (JValue.obj fields, rem2)
            | none => none
        | [] => none
      else if c = '-' || c.isDigit then
        match parseJsonNumber (c :: rest) with
        | some (n, rem) => some (JValue.num n, rem)
        | none => none
      else none

/-- Parse the members of a JSON object, positioned at the first key and
finishing after the closing brace. -/
def parseJsonMembers : Nat → List Char → Option (List (String × JValue) × List Char)
  | 0, _ => none
  | fuel + 1, cs =>
    match skipWs cs with
    | '"' :: rest =>
      (match parseJsonStringBody rest with
       | some (k, rem) =>
         match skipWs rem with
         | ':' :: rem2 =>
           (match parseJsonValue fuel rem2 with
            | some (v, rem3) =>
              (match skipWs rem3 with
               | ',' :: rem4 =>
                 (match parseJsonMembers fuel rem4 with
                  | some (fields, rem5) => some ((k, v) :: fields, rem5)
                  | none => none)
               | c :: rem4 =>
                 if c = rbrace then some ([(k, v)], rem4) else none
               | [] => none)
            | none => none)
         | _ => none
       | none => none)
    | _ => none

end

/-- The stand-in for `JSON.parse`: parses a full JSON value with no
trailing garbage, or fails. Arrays with elements are not needed by any
claim and are rejected by the parser (a model restriction; no claim
feeds it a non-empty array literal). -/
def jsonParse (s : String) : Option JValue :=
  match parseJsonValue (s.length + 1) s.toList with
  | some (v, rem) => if (skipWs rem).isEmpty then some v else none
  | none => none

/-- Whether `needle` is a prefix of `hay` (character lists). -/
def isPrefixList : List Char → List Char → Bool
  | [], _ => true
  | _ :: _, [] => false
  | a :: as, b :: bs => a = b && isPrefixList as bs

/-- Whether a character list contains another as a contiguous run. -/
def containsList (needle : List Char) : List Char → Bool
  | [] => isPrefixList needle []
  | b :: bs => isPrefixList needle (b :: bs) || containsList needle bs

/-- JS `hay.includes(needle)`. -/
def jsIncludes (hay needle : String) : Bool :=
  containsList needle.toList hay.toList

/-- JS `hay.startsWith(needle)`. -/
def jsStartsWith (hay needle : String) : Bool :=
  isPrefixList needle.toList hay.toList

/-- JS `s.substring(0, n)`. -/
def jsSubstringTo (s : String) (n : Nat) : String :=
  String.mk (s.toList.take n)

/-- JS `s.toLowerCase()` (the scanned failure phrases are ASCII, for
which `Char.toLower` agrees with JS). -/
def toLowerString (s : String) : String :=
  String.mk (s.toList.map Char.toLower)

/-- `ERROR_PATTERNS` (src/src/utils/response.ts lines 4-8). -/
def ERROR_PATTERNS : List String :=
  ["error:", "permission denied", "access denied"]

/-- JS truthiness of a `JValue` (`null`, `false`, `0`, and the empty
string are falsy; objects and arrays are always truthy). -/
def jsFalsy : JValue → Bool
  | JValue.null => true
  | JValue.bool b => !b
  | JValue.num n => n = 0
  | JValue.str s => s = ""
  | JValue.arr _ => false
  | JValue.obj _ => false

/-- JS string conversion as used when a `JValue` is spliced into a
template literal (objects render as `[object Object]`, arrays join their
elements with commas). -/
def jsDisplay : JValue → String
  | JValue.null => "null"
  | JValue.bool b => if b then "true" else "false"
  | JValue.num n => toString n
  | JValue.str s => s
  | JValue.arr elems => String.intercalate "," (elems.map fun e =>
      match e with
      | JValue.null => ""
      | JValue.bool b => if b then "true" else "false"
      | JValue.num n => toString n
      | JValue.str s => s
      | JValue.arr _ => ""
      | JValue.obj _ => "[object Object]")
  | JValue.obj _ => "[object Object]"

/-- Typed errors raised by `normalizeResponse`
(`PermissionError` and `ResourceSpaceError`, src/src/core/errors.ts). -/
inductive RSErr where
  | permission (functionName : String) (detail : String)
  | rsError (message : String) (functionName : String) (rsDetail : String)
deriving DecidableEq, Repr

/-- `normalizeResponse` (src/src/utils/response.ts lines 22-74).
`null`/`undefined` pass through as `null`; strings are scanned (in lower
case) for permission phrases, then for general error markers, BEFORE any
parse attempt; non-error strings are JSON-parsed when possible and
returned unchanged otherwise; objects carrying an `error` field raise a
general API error; everything else passes through. -/
def normalizeResponse (data : JValue) (functionName : String) : Except RSErr JValue :=
  match data with
  | JValue.null => Except.ok JValue.null
  | JValue.str s =>
    let lower := toLowerString s
    if jsIncludes lower "permission denied" || jsIncludes lower "access denied" then
      Except.error (RSErr.permission functionName (jsSubstringTo s 200))
    else if jsStartsWith lower "error" || ERROR_PATTERNS.any (fun p => jsIncludes lower p) then
      Except.error (RSErr.rsError
        ("ResourceSpace API error: " ++ jsSubstringTo s 200)
        functionName (jsSubstringTo s 200))
    else
      match jsonParse s with
      | some parsed => Except.ok parsed
      | none => Except.ok (JValue.str s)
  | JValue.obj fields =>
    (match lookupField fields "error" with
     | some errVal =>
       let errorMsg := if jsFalsy errVal then "Unknown error" else jsDisplay errVal
       Except.error (RSErr.rsError
         ("ResourceSpace API error: " ++ errorMsg) functionName errorMsg)
     | none => Except.ok (JValue.obj fields))
  | other => Except.ok other

/-- `toNumber` (src/src/utils/response.ts lines 80-84) applied to an
optional property value (`none` models `undefined`). `parseInt(s, 10)`
semantics: leading whitespace, an optional sign, then a maximal decimal
digit run; no digits gives `NaN`, hence `null`. Non-string non-number
inputs fail the `Number.isFinite` check. -/
def parseIntJS (s : String) : Option Int :=
  let cs := s.toList.dropWhile isJsonWs
  let signed :=
    match cs with
    | '-' :: rest => (true, rest)
    | '+' :: rest => (false, rest)
    | _ => (false, cs)
  let ds := signed.2.takeWhile Char.isDigit
  if ds.isEmpty then none
  else
    let n : Int := Int.ofNat (digitsToNat ds)
    some (if signed.1 then -n else n)

/-- `toNumber` (src/src/utils/response.ts lines 80-84). -/
def toNumber : Option JValue → Option Int
  | none => none
  | some JValue.null => none
  | some (JValue.str s) => parseIntJS s
  | some (JValue.num n) => some n
  | some (JValue.bool _) => none
  | some (JValue.arr _) => none
  | some (JValue.obj _) => none

/-- `ensureArray` (src/src/utils/response.ts lines 90-100): a true array
passes through, `null` becomes `[]`, the wrapped shapes unwrap their
`resources` or `data` arrays, and anything else yields `[]`. -/
def ensureArray (data : JValue) : List JValue :=
  match data with
  | JValue.arr xs => xs
  | JValue.null => []
  | JValue.obj fields =>
    (match lookupField fields "resources" with
     | some (JValue.arr xs) => xs
     | _ =>
       match lookupField fields "data" with
       | some (JValue.arr xs) => xs
       | _ => [])
  | _ => []

-- JSON.stringify, as used for the `data` parameter of save_user.

/-- One character of JS `JSON.stringify` string escaping. -/
def escapeJsonChar (c : Char) : String :=
  if c = '"' then "\\\""
  else if c = '\\' then "\\\\"
  else if c = '\n' then "\\n"
  else if c = '\r' then "\\r"
  else if c = '\t' then "\\t"
  else if c = Char.ofNat 8 then "\\b"
  else if c = Char.ofNat 12 then "\\f"
  else if c.toNat < 32 then
    "\\u00" ++ String.mk [hexDigitLower (c.toNat / 16), hexDigitLower (c.toNat % 16)]
  else String.singleton c

/-- JS `JSON.stringify` of a string. -/
def jsonStringifyString (s : String) : String :=
  "\"" ++ String.join (s.toList.map escapeJsonChar) ++ "\""

mutual

/-- JS `JSON.stringify` of a value (fields in insertion order). -/
def jsonStringify : JValue → String
  | JValue.null => "null"
  | JValue.bool b => if b then "true" else "false"
  | JValue.num n => toString n
  | JValue.str s => jsonStringifyString s
  | JValue.arr elems =>
    "[" ++ String.intercalate "," (jsonStringifyList elems) ++ "]"
  | JValue.obj fields =>
    String.singleton lbrace ++
      String.intercalate "," (jsonStringifyFields fields) ++
      String.singleton rbrace

/-- Renderings of the elements of a JSON array. -/
def jsonStringifyList : List JValue → List String
  | [] => []
  | v :: vs => jsonStringify v :: jsonStringifyList vs

/-- Renderings of the members of a JSON object. -/
def jsonStringifyFields : List (String × JValue) → List String
  | [] => []
  | (k, v) :: kvs =>
    (jsonStringifyString k ++ ":" ++ jsonStringify v) :: jsonStringifyFields kvs

end

-- The user capability (src/unnamed/part_005), embedded as trace
-- semantics: each remote `makeRequest` is recorded as a trace event and
-- its outcome is read from an environment function indexed by the number
-- of calls issued so far. `client.log` calls are not modelled (they have
-- no remote effect and no claim mentions them).

/-- Outcome of one `makeRequest` call, as seen by a capability method: a
normalized value, or a thrown error carrying its `message`. -/
inductive CallResult where
  | ok (v : JValue)
  | err (message : String)

/-- Externally visible effects of a capability method. -/
inductive TraceEvent where
  | request (functionName : String) (params : List (String × JSVal))
  | sleep (ms : Nat)
deriving DecidableEq, Repr

/-- The slice of the validated client configuration the embedded
capabilities read (src/src/core/types.ts lines 7-29; the transport-only
fields are never consulted by the embedded code). -/
structure RSConfig where
  user : String := ""
  secret : String := ""
  authMode : AuthMode := AuthMode.apiKey
  signupUsergroup : Option Int := none
  maxBatchSize : Option Nat := none
deriving DecidableEq, Repr

/-- `CreateUserParams` (src/src/core/types.ts lines 202-207). The
`usergroup` field is NOT part of the declared interface; it models a
caller smuggling an extra property into the object, which `createUser`
never reads. -/
structure CreateUserParams where
  username : String
  email : String
  fullname : Option String := none
  password : Option String := none
  usergroup : Option Int := none
deriving DecidableEq, Repr

/-- `SAVE_USER_ALLOWED_FIELDS` (src/unnamed/part_005 lines 14-19). -/
def SAVE_USER_ALLOWED_FIELDS : List String :=
  ["fullname", "email", "password", "comments"]

/-- `MAX_RETRIES` for the createUser lock-down step
(src/unnamed/part_005 line 150). -/
def MAX_RETRIES : Nat := 3

/-- `BACKOFF_BASE_MS` (src/unnamed/part_005 line 151). -/
def BACKOFF_BASE_MS : Nat := 500

/-- `parseNewUserRef`: the ref-extraction in `createUser`
(src/unnamed/part_005 lines 132-138). Objects try `ref` then `user`
(arrays are `typeof 'object'` and yield `undefined` for both); other
values go through `toNumber` directly. -/
def parseNewUserRef : JValue → Option Int
  | JValue.obj fields =>
    (match toNumber (lookupField fields "ref") with
     | some n => some n
     | none => toNumber (lookupField fields "user"))
  | JValue.arr _ => none
  | v => toNumber (some v)

/-- JS truthiness of an optional string field (`undefined` and the empty
string are falsy). -/
def truthyStr : Option String → Bool
  | none => false
  | some s => !(s == "")

/-- The `saveData` record assembled by `createUser`
(src/unnamed/part_005 lines 145-148): `approved: 0` first, then
`fullname`, `email`, `password` when truthy. -/
def createUserSaveData (p : CreateUserParams) : List (String × JValue) :=
  [("approved", JValue.num 0)] ++
  (match p.fullname with
   | some s => if s = "" then [] else [("fullname", JValue.str s)]
   | none => []) ++
  (if p.email = "" then [] else [("email", JValue.str p.email)]) ++
  (match p.password with
   | some s => if s = "" then [] else [("password", JValue.str s)]
   | none => [])

/-- The `save_user` parameter map used by the lock-down step
(src/unnamed/part_005 lines 156-159). -/
def createUserSaveParams (p : CreateUserParams) (ref : Int) : List (String × JSVal) :=
  [("ref", JSVal.str (toString ref)),
   ("data", JSVal.str (jsonStringify (JValue.obj (createUserSaveData p))))]

/-- The message of the `SecurityError` escalated when every lock-down
attempt fails (src/unnamed/part_005 lines 175-180). -/
def createUserFailureMsg (ref : Int) (lastErrMsg : String) : String :=
  "CRITICAL: User " ++ toString ref ++ " was created but save_user failed after " ++
  toString MAX_RETRIES ++ " attempts. " ++
  "User may be auto-approved (RS defaults approved=1). " ++
  "Manually set approved=0 for user ref " ++ toString ref ++ ". " ++
  "Cause: " ++ lastErrMsg

/-- Outcome of `createUser`: the returned ref, a thrown plain error
(either a propagated request failure or the invalid-ref error), or the
escalated `SecurityError`. -/
inductive CUOutcome where
  | ok (ref : Int)
  | errorThrown (message : String)
  | securityError (message : String)
deriving DecidableEq, Repr

/-- The retry loop of `createUser` (src/unnamed/part_005 lines 154-171),
written with the remaining attempt count as fuel: the iteration with
loop counter `attempt` runs with `fuel = MAX_RETRIES - attempt + 1`, so
`attempt = MAX_RETRIES - fuel` inside the successor case and the
`attempt < MAX_RETRIES` guard for the backoff sleep becomes `0 < fuel`.
`callIdx` indexes the environment; `lastErr` threads the last caught
error message. -/
def saveUserAttempts (env : Nat → CallResult) (saveParams : List (String × JSVal))
    (ref : Int) : Nat → String → Nat → List TraceEvent × CUOutcome
  | _, lastErr, 0 => ([], CUOutcome.securityError (createUserFailureMsg ref lastErr))
  | callIdx, _, fuel + 1 =>
    match env callIdx with
    | CallResult.ok _ =>
      ([TraceEvent.request "save_user" saveParams], CUOutcome.ok ref)
    | CallResult.err m =>
      let rest := saveUserAttempts env saveParams ref (callIdx + 1) m fuel
      if 0 < fuel then
        (TraceEvent.request "save_user" saveParams ::
           TraceEvent.sleep (BACKOFF_BASE_MS * (MAX_RETRIES - fuel)) :: rest.1,
         rest.2)
      else
        (TraceEvent.request "save_user" saveParams :: rest.1, rest.2)

/-- `createUser` (src/unnamed/part_005 lines 121-181). The usergroup is
read from the configuration's `signupUsergroup` (falling back to 9),
never from the caller's parameters; the provisioning call sends exactly
`username` and `usergroup`; the lock-down call sets `approved: 0` and is
retried with linear backoff, escalating to a `SecurityError` naming the
orphaned ref when every attempt fails. -/
def createUser (cfg : RSConfig) (p : CreateUserParams) (env : Nat → CallResult) :
    List TraceEvent × CUOutcome :=
  let usergroup : Int :=
    match cfg.signupUsergroup with
    | some g => g
    | none => 9
  let newUserParams : List (String × JSVal) :=
    [("username", JSVal.str p.username), ("usergroup", JSVal.num usergroup)]
  let firstEvent := TraceEvent.request "new_user" newUserParams
  match env 0 with
  | CallResult.err m => ([firstEvent], CUOutcome.errorThrown m)
  | CallResult.ok result =>
    match parseNewUserRef result with
    | none => ([firstEvent], CUOutcome.errorThrown "new_user returned invalid ref")
    | some ref =>
      let rest := saveUserAttempts env (createUserSaveParams p ref) ref 1 "undefined"
        MAX_RETRIES
      (firstEvent :: rest.1, rest.2)

-- saveUser (src/unnamed/part_005 lines 183-231).

/-- `sanitized`: the caller's field map restricted to the allow-list,
dropping `undefined` values (src/unnamed/part_005 lines 187-192). The
caller's map is modelled as its entry list; `none` models `undefined`. -/
def sanitizeUserUpdate (data : List (String × Option String)) : List (String × String) :=
  data.filterMap fun kv =>
    match kv.2 with
    | some v =>
      if SAVE_USER_ALLOWED_FIELDS.contains kv.1 then some (kv.1, v) else none
    | none => none

/-- Outcome of `saveUser`: the returned result record, or the
`SecurityError` thrown when filtering leaves no fields. -/
inductive SaveUserOutcome where
  | result (success : Bool) (error : Option String)
  | securityError (message : String)
deriving DecidableEq, Repr

/-- The legacy-error and fallthrough cases of the save_user response
interpretation (src/unnamed/part_005 lines 221-226). -/
def interpretJSendFallback (fields : List (String × JValue)) : SaveUserOutcome :=
  match lookupField fields "error" with
  | some e =>
    SaveUserOutcome.result false
      (some (if jsFalsy e then "Unknown error" else jsDisplay e))
  | none => SaveUserOutcome.result false (some "Unexpected response format")

/-- The JSend interpretation of the save_user response
(src/unnamed/part_005 lines 211-226): a `status` of `success` or `fail`
is recognized first (`status` values are compared with `===`, so only
string statuses match), then a legacy `error` field, then the
unexpected-format fallback. -/
def interpretJSend (result : JValue) : SaveUserOutcome :=
  match result with
  | JValue.obj fields =>
    (match lookupField fields "status" with
     | some (JValue.str st) =>
       if st = "success" then SaveUserOutcome.result true none
       else if st = "fail" then
         SaveUserOutcome.result false (some
           (match lookupField fields "data" with
            | some (JValue.obj d) =>
              (match lookupField d "message" with
               | some m => if jsFalsy m then "Save failed" else jsDisplay m
               | none => "Save failed")
            | _ => "Save failed"))
       else interpretJSendFallback fields
     | _ => interpretJSendFallback fields)
  | _ => SaveUserOutcome.result false (some "Unexpected response format")

/-- `saveUser` (src/unnamed/part_005 lines 183-231): filters the field
map through the allow-list, throws `SecurityError` without any remote
call when nothing remains, and otherwise issues exactly one `save_user`
request carrying the sanitized map as JSON. -/
def saveUser (userRef : Int) (data : List (String × Option String))
    (env : Nat → CallResult) : List TraceEvent × SaveUserOutcome :=
  let sanitized := sanitizeUserUpdate data
  if sanitized.isEmpty then
    ([], SaveUserOutcome.securityError
      ("No valid fields to update. Allowed fields: " ++
        String.intercalate ", " SAVE_USER_ALLOWED_FIELDS))
  else
    let params : List (String × JSVal) :=
      [("ref", JSVal.str (toString userRef)),
       ("data", JSVal.str (jsonStringify
         (JValue.obj (sanitized.map fun kv => (kv.1, JValue.str kv.2)))))]
    let trace := [TraceEvent.request "save_user" params]
    match env 0 with
    | CallResult.err m => (trace, SaveUserOutcome.result false (some m))
    | CallResult.ok result => (trace, interpretJSend result)

-- The search capability (src/unnamed/part_004).

/-- `DEFAULT_LIMIT` (src/unnamed/part_004 line 7). -/
def DEFAULT_LIMIT : Int := 24

/-- `SearchOptions` (src/src/core/types.ts lines 171-179); `none` models
an absent (`undefined`) option. -/
structure SearchOptions where
  orderBy : Option String := none
  sort : Option String := none
  offset : Option Int := none
  limit : Option Int := none
  resourceTypes : Option String := none
  archive : Option Int := none
  dataJoins : Option (List Int) := none
deriving DecidableEq, Repr

/-- The `do_search` parameter map assembled by `search`
(src/unnamed/part_004 lines 44-56): destructuring defaults
(`orderBy = 'relevance'`, `offset = 0`, `limit = DEFAULT_LIMIT`), a
`fetchrows` of `limit + 1` (one extra row to detect further pages), and
the conditional `sort`/`restypes`/`archive`/`data_joins` entries
(`sort` and `resourceTypes` are truthiness-guarded, `archive` is an
`undefined` check, `dataJoins` requires a non-empty list). -/
def searchParams (query : String) (o : SearchOptions) : List (String × JSVal) :=
  [("search", JSVal.str query),
   ("order_by", JSVal.str (o.orderBy.getD "relevance")),
   ("offset", JSVal.num (o.offset.getD 0)),
   ("fetchrows", JSVal.num (o.limit.getD DEFAULT_LIMIT + 1))] ++
  (match o.sort with
   | some s => if s = "" then [] else [("sort", JSVal.str s)]
   | none => []) ++
  (match o.resourceTypes with
   | some s => if s = "" then [] else [("restypes", JSVal.str s)]
   | none => []) ++
  (match o.archive with
   | some a => [("archive", JSVal.num a)]
   | none => []) ++
  (match o.dataJoins with
   | some ds => if ds.isEmpty then []
       else [("data_joins", JSVal.str (String.intercalate "," (ds.map toString)))]
   | none => [])

/-- `SearchResult` as produced by the part_004 `search` (with the
`hasMore` page indicator). -/
structure SearchResultM where
  resources : List JValue
  count : Nat
  offset : Int
  hasMore : Bool

/-- `search` (src/unnamed/part_004 lines 30-71): issues one `do_search`
request, coerces the response through `ensureArray`, and slices off the
extra row fetched for the `hasMore` check (for the non-negative limits
the API is called with, `slice(0, limit)` is `take`). -/
def search (query : String) (o : SearchOptions) (env : Nat → CallResult) :
    List TraceEvent × Except String SearchResultM :=
  let params := searchParams query o
  let trace := [TraceEvent.request "do_search" params]
  match env 0 with
  | CallResult.err m => (trace, Except.error m)
  | CallResult.ok v =>
    let result := ensureArray v
    let lim := o.limit.getD DEFAULT_LIMIT
    let hasMore := (result.length : Int) > lim
    let page := if hasMore then result.take lim.toNat else result
    (trace, Except.ok ⟨page, page.length, o.offset.getD 0, hasMore⟩)

-- The batch capability, first variant (src/src/capabilities/batch.ts
-- lines 34-138), the one the batch-limit claim cites.

/-- Result of `enforceLimit` (src/src/capabilities/batch.ts lines
34-38): a `BatchSizeLimitError` carrying the attempted size and the
configured maximum when the list is too long. -/
inductive BatchCheck where
  | ok
  | sizeError (actual max : Nat)
deriving DecidableEq, Repr

/-- `enforceLimit` (src/src/capabilities/batch.ts lines 34-38). -/
def enforceLimit (ids : List Int) (max : Nat) : BatchCheck :=
  if ids.length > max then BatchCheck.sizeError ids.length max else BatchCheck.ok

/-- `validateId` (src/src/core/errors.ts lines 78-82); the
`Number.isInteger` half of the check always holds for `Int`. Returns the
`ValidationError` message when the id is not positive. -/
def validateId (value : Int) (name : String) : Option String :=
  if value ≤ 0 then some (name ++ " must be a positive integer, got: " ++ toString value)
  else none

/-- `validateIds` (src/src/capabilities/batch.ts lines 40-44): the first
failing id's error, if any. -/
def validateIds (ids : List Int) (name : String) : Option String :=
  ids.findSome? fun id => validateId id name

/-- The configured batch ceiling: `client.config.maxBatchSize ?? 100`
(src/src/capabilities/batch.ts line 47). -/
def batchMax (cfg : RSConfig) : Nat :=
  cfg.maxBatchSize.getD 100

/-- Outcome of a batch method: the returned boolean, the size-limit
error, a validation error, or a propagated request failure. -/
inductive BatchOutcome where
  | ok (value : Bool)
  | batchLimit (actual max : Nat)
  | validation (message : String)
  | errorThrown (message : String)
deriving DecidableEq, Repr

/-- Comma-joined rendering of an id list (`ids.join(',')`). -/
def joinIds (ids : List Int) : String :=
  String.intercalate "," (ids.map toString)

/-- Shared tail of the single-request batch methods: issue the request
and map the result through `result !== false`. -/
def batchSingleRequest (fn : String) (params : List (String × JSVal))
    (env : Nat → CallResult) : List TraceEvent × BatchOutcome :=
  match env 0 with
  | CallResult.err m => ([TraceEvent.request fn params], BatchOutcome.errorThrown m)
  | CallResult.ok v =>
    ([TraceEvent.request fn params],
     BatchOutcome.ok (match v with
       | JValue.bool b => b
       | _ => true))

/-- `batchFieldUpdate` (src/src/capabilities/batch.ts lines 50-60). -/
def batchFieldUpdate (cfg : RSConfig) (resourceIds : List Int) (fieldId : Int)
    (value : String) (env : Nat → CallResult) : List TraceEvent × BatchOutcome :=
  match enforceLimit resourceIds (batchMax cfg) with
  | BatchCheck.sizeError a m => ([], BatchOutcome.batchLimit a m)
  | BatchCheck.ok =>
    match validateIds resourceIds "resource ID" with
    | some msg => ([], BatchOutcome.validation msg)
    | none =>
      match validateId fieldId "field ID" with
      | some msg => ([], BatchOutcome.validation msg)
      | none =>
        batchSingleRequest "update_field"
          [("resource", JSVal.str (joinIds resourceIds)),
           ("field", JSVal.str (toString fieldId)),
           ("value", JSVal.str value)] env

/-- `batchDelete` (src/src/capabilities/batch.ts lines 62-69). -/
def batchDelete (cfg : RSConfig) (resourceIds : List Int)
    (env : Nat → CallResult) : List TraceEvent × BatchOutcome :=
  match enforceLimit resourceIds (batchMax cfg) with
  | BatchCheck.sizeError a m => ([], BatchOutcome.batchLimit a m)
  | BatchCheck.ok =>
    match validateIds resourceIds "resource ID" with
    | some msg => ([], BatchOutcome.validation msg)
    | none =>
      batchSingleRequest "delete_resource"
        [("resource", JSVal.str (joinIds resourceIds))] env

/-- The per-resource loop shared by `batchCollectionAdd`,
`batchCollectionRemove` and `batchNodesRemove`: one request per id,
aborting on the first thrown request error. `mkParams` builds the
parameter map for one id. -/
def batchPerIdLoop (fn : String) (mkParams : Int → List (String × JSVal))
    (env : Nat → CallResult) : Nat → List Int → List TraceEvent × Option String
  | _, [] => ([], none)
  | idx, id :: restIds =>
    let ev := TraceEvent.request fn (mkParams id)
    match env idx with
    | CallResult.err m => ([ev], some m)
    | CallResult.ok _ =>
      let rest := batchPerIdLoop fn mkParams env (idx + 1) restIds
      (ev :: rest.1, rest.2)

/-- `batchCollectionAdd` (src/src/capabilities/batch.ts lines 71-82). -/
def batchCollectionAdd (cfg : RSConfig) (collectionId : Int) (resourceIds : List Int)
    (env : Nat → CallResult) : List TraceEvent × BatchOutcome :=
  match enforceLimit resourceIds (batchMax cfg) with
  | BatchCheck.sizeError a m => ([], BatchOutcome.batchLimit a m)
  | BatchCheck.ok =>
    match validateId collectionId "collection ID" with
    | some msg => ([], BatchOutcome.validation msg)
    | none =>
      match validateIds resourceIds "resource ID" with
      | some msg => ([], BatchOutcome.validation msg)
      | none =>
        let r := batchPerIdLoop "add_resource_to_collection"
          (fun id => [("resource", JSVal.str (toString id)),
                      ("collection", JSVal.str (toString collectionId))]) env 0 resourceIds
        (r.1, match r.2 with
          | some m => BatchOutcome.errorThrown m
          | none => BatchOutcome.ok true)

/-- `batchCollectionRemove` (src/src/capabilities/batch.ts lines 84-95). -/
def batchCollectionRemove (cfg : RSConfig) (collectionId : Int) (resourceIds : List Int)
    (env : Nat → CallResult) : List TraceEvent × BatchOutcome :=
  match enforceLimit resourceIds (batchMax cfg) with
  | BatchCheck.sizeError a m => ([], BatchOutcome.batchLimit a m)
  | BatchCheck.ok =>
    match validateId collectionId "collection ID" with
    | some msg => ([], BatchOutcome.validation msg)
    | none =>
      match validateIds resourceIds "resource ID" with
      | some msg => ([], BatchOutcome.validation msg)
      | none =>
        let r := batchPerIdLoop "remove_resource_from_collection"
          (fun id => [("resource", JSVal.str (toString id)),
                      ("collection", JSVal.str (toString collectionId))]) env 0 resourceIds
        (r.1, match r.2 with
          | some m => BatchOutcome.errorThrown m
          | none => BatchOutcome.ok true)

/-- `batchNodesAdd` (src/src/capabilities/batch.ts lines 97-108). -/
def batchNodesAdd (cfg : RSConfig) (resourceIds nodeIds : List Int)
    (env : Nat → CallResult) : List TraceEvent × BatchOutcome :=
  match enforceLimit resourceIds (batchMax cfg) with
  | BatchCheck.sizeError a m => ([], BatchOutcome.batchLimit a m)
  | BatchCheck.ok =>
    match validateIds resourceIds "resource ID" with
    | some msg => ([], BatchOutcome.validation msg)
    | none =>
      match validateIds nodeIds "node ID" with
      | some msg => ([], BatchOutcome.validation msg)
      | none =>
        batchSingleRequest "add_resource_nodes_multi"
          [("resourceid", JSVal.str (joinIds resourceIds)),
           ("nodes", JSVal.str (joinIds nodeIds))] env

/-- `batchNodesRemove` (src/src/capabilities/batch.ts lines 110-124). -/
def batchNodesRemove (cfg : RSConfig) (resourceIds nodeIds : List Int)
    (env : Nat → CallResult) : List TraceEvent × BatchOutcome :=
  match enforceLimit resourceIds (batchMax cfg) with
  | BatchCheck.sizeError a m => ([], BatchOutcome.batchLimit a m)
  | BatchCheck.ok =>
    match validateIds resourceIds "resource ID" with
    | some msg => ([], BatchOutcome.validation msg)
    | none =>
      match validateIds nodeIds "node ID" with
      | some msg => ([], BatchOutcome.validation msg)
      | none =>
        let r := batchPerIdLoop "remove_resource_nodes"
          (fun rid => [("resource", JSVal.str (toString rid)),
                       ("nodestring", JSVal.str (joinIds nodeIds))]) env 0 resourceIds
        (r.1, match r.2 with
          | some m => BatchOutcome.errorThrown m
          | none => BatchOutcome.ok true)

/-- `batchArchiveStatus` (src/src/capabilities/batch.ts lines 126-134). -/
def batchArchiveStatus (cfg : RSConfig) (resourceIds : List Int) (archiveStatus : Int)
    (env : Nat → CallResult) : List TraceEvent × BatchOutcome :=
  match enforceLimit resourceIds (batchMax cfg) with
  | BatchCheck.sizeError a m => ([], BatchOutcome.batchLimit a m)
  | BatchCheck.ok =>
    match validateIds resourceIds "resource ID" with
    | some msg => ([], BatchOutcome.validation msg)
    | none =>
      batchSingleRequest "update_resource_archive_status"
        [("resource", JSVal.str (joinIds resourceIds)),
         ("archive", JSVal.str (toString archiveStatus))] env

/-- Whether a batch method got as far as issuing its (first) remote
call: its trace starts with a request event. -/
def issuedRemoteCall (r : List TraceEvent × BatchOutcome) : Bool :=
  match r.1.head? with
  | some (TraceEvent.request _ _) => true
  | _ => false

-- Capability attachment (src/src/utils/assign-capability.ts, embedded in
-- src/unnamed/part_002 lines 91-104, vs plain Object.assign). Methods
-- are closures; the model is parametric in the property value type and
-- tracks the JS property descriptors that govern overridability.

/-- A JS data-property descriptor. -/
structure PropDescriptor (V : Type) where
  value : V
  writable : Bool
  enumerable : Bool
  configurable : Bool
deriving DecidableEq, Repr

/-- A JS object's own properties, as an entry list with unique keys. -/
abbrev JSObject (V : Type) : Type := List (String × PropDescriptor V)

/-- Descriptor of an own property (first entry with the key; objects
keep their keys unique). -/
def getProp {V : Type} : JSObject V → String → Option (PropDescriptor V)
  | [], _ => none
  | e :: es, k => if e.1 = k then some e.2 else getProp es k

/-- Value of an own property (JS property read). -/
def jsGet {V : Type} (o : JSObject V) (k : String) : Option V :=
  (getProp o k).map (·.value)

/-- Replace the descriptor of an existing key (keeping its position, as
JS objects do), or append a new entry. -/
def setProp {V : Type} : JSObject V → String → PropDescriptor V → JSObject V
  | [], k, d => [(k, d)]
  | e :: es, k, d => if e.1 = k then (k, d) :: es else e :: setProp es k d

/-- `Object.defineProperty(o, k, d)`. Redefining a non-configurable,
non-writable property throws a `TypeError` and leaves the object
unmodified; that no-mutation outcome is what the model keeps (the
library only defines fresh keys, so the throwing path is never taken). -/
def defineProperty {V : Type} (o : JSObject V) (k : String) (d : PropDescriptor V) :
    JSObject V :=
  match getProp o k with
  | some existing => if existing.configurable then setProp o k d else o
  | none => setProp o k d

/-- A JS property write `o.k = v` ([[Set]] on an own data property): a
non-writable property rejects the write (a `TypeError` in strict mode)
and the stored value does not change; a writable or absent property
takes the value (fresh properties are created
writable/enumerable/configurable). -/
def jsSet {V : Type} (o : JSObject V) (k : String) (v : V) : JSObject V :=
  match getProp o k with
  | some d => if d.writable then setProp o k { d with value := v } else o
  | none => setProp o k ⟨v, true, true, true⟩

/-- `assignCapability` (src/unnamed/part_002 lines 91-104): each method
is attached with `Object.defineProperty` and
`writable: false, enumerable: true, configurable: false`. -/
def assignCapability {V : Type} (target : JSObject V) (methods : List (String × V)) :
    JSObject V :=
  methods.foldl (fun o kv => defineProperty o kv.1 ⟨kv.2, false, true, false⟩) target

/-- `Object.assign(target, methods)`: each enumerable own property of the
source is written to the target with an ordinary [[Set]]. -/
def objectAssign {V : Type} (target : JSObject V) (methods : List (String × V)) :
    JSObject V :=
  methods.foldl (fun o kv => jsSet o kv.1 kv.2) target

/-- The attachment step of `withUsers` (src/unnamed/part_005 line 234):
`return Object.assign(client, methods)`, with the method
implementations abstracted as values of `V`. -/
def withUsersAttach {V : Type} (client : JSObject V) (methods : List (String × V)) :
    JSObject V :=
  objectAssign client methods

/-- The attachment step of the second `withBatch` variant
(src/src/capabilities/batch.ts line 257): `return Object.assign(client,
methods)`. -/
def withBatchAssignAttach {V : Type} (client : JSObject V) (methods : List (String × V)) :
    JSObject V :=
  objectAssign client methods

/-- The attachment step of `withSearch` (src/unnamed/part_004 line 98)
and of the first `withBatch` variant (src/src/capabilities/batch.ts line
137): `return assignCapability(client, methods)`. -/
def withCapabilityAttach {V : Type} (client : JSObject V) (methods : List (String × V)) :
    JSObject V :=
  assignCapability client methods

-- Helper lemmas.

/-- The first trace event of `createUser` is always the `new_user`
provisioning request carrying exactly the username and the configured
usergroup, whatever the environment does. -/
theorem createUser_head (cfg : RSConfig) (p : CreateUserParams) (env : Nat → CallResult) :
    (createUser cfg p env).1.head? = some (TraceEvent.request "new_user"
      [("username", JSVal.str p.username),
       ("usergroup", JSVal.num (match cfg.signupUsergroup with
         | some g => g
         | none => 9))]) := by
  unfold createUser
  cases henv : env 0 with
  | err m => rfl
  | ok result =>
    cases href : parseNewUserRef result with
    | none => simp [href]
    | some ref => simp [href]

/-- A list is a prefix of itself followed by anything. -/
theorem isPrefixList_append (xs ys : List Char) : isPrefixList xs (xs ++ ys) = true := by
  induction xs with
  | nil => rfl
  | cons a as ih => simp [isPrefixList, ih]

/-- A run at the front of a list is contained in it. -/
theorem containsList_self_append (xs ys : List Char) :
    containsList xs (xs ++ ys) = true := by
  cases xs with
  | nil =>
    cases ys with
    | nil => rfl
    | cons b bs => simp [containsList, isPrefixList]
  | cons a as =>
    unfold containsList
    simp [isPrefixList, isPrefixList_append]

/-- Containment is preserved by extending the haystack on the left. -/
theorem containsList_cons (xs : List Char) (b : Char) (bs : List Char)
    (h : containsList xs bs = true) : containsList xs (b :: bs) = true := by
  simp [containsList, h]

/-- A run after any prefix is contained. -/
theorem containsList_append (pre xs ys : List Char) :
    containsList xs (pre ++ (xs ++ ys)) = true := by
  induction pre with
  | nil => simpa using containsList_self_append xs ys
  | cons b bs ih => exact containsList_cons _ _ _ ih

/-- String append concatenates the character lists. -/
theorem stringToList_append (a b : String) : (a ++ b).toList = a.toList ++ b.toList := by
  cases a
  cases b
  rfl

/-- The escalation message of the failed lock-down names the orphaned
reference id. -/
theorem createUserFailureMsg_names_ref (ref : Int) (m : String) :
    jsIncludes (createUserFailureMsg ref m) (toString ref) = true := by
  unfold createUserFailureMsg jsIncludes
  rw [show "CRITICAL: User " ++ toString ref ++ " was created but save_user failed after " ++
      toString MAX_RETRIES ++ " attempts. " ++
      "User may be auto-approved (RS defaults approved=1). " ++
      "Manually set approved=0 for user ref " ++ toString ref ++ ". " ++
      "Cause: " ++ m =
    "CRITICAL: User " ++ (toString ref ++ (" was created but save_user failed after " ++
      (toString MAX_RETRIES ++
        (" attempts. User may be auto-approved (RS defaults approved=1). Manually set approved=0 for user ref " ++
          (toString ref ++ (". Cause: " ++ m)))))) from by simp [String.append_assoc]]
  rw [stringToList_append, stringToList_append]
  exact containsList_append _ _ _

/-- The keys of the built query entries: `user` first, then exactly the
keys of the parameters that are neither null nor undefined, in order. -/
theorem buildQueryEntries_keys (user : String) (params : List (String × JSVal)) :
    (buildQueryEntries user params).map Prod.fst =
      "user" :: (params.filter fun kv =>
        kv.2 != JSVal.null && kv.2 != JSVal.undef).map Prod.fst := by
  simp only [buildQueryEntries, List.map_cons, List.cons.injEq, true_and]
  induction params with
  | nil => rfl
  | cons kv rest ih =>
    obtain ⟨k, v⟩ := kv
    cases v <;> simp_all [List.filterMap_cons]

/-- In an entry list with nodup keys, a key determines its value. -/
theorem keys_nodup_val_unique {α : Type} (l : List (String × α))
    (hnd : (l.map Prod.fst).Nodup) (k : String) (a b : α)
    (ha : (k, a) ∈ l) (hb : (k, b) ∈ l) : a = b := by
  induction l with
  | nil => cases ha
  | cons e rest ih =>
    simp only [List.map_cons, List.nodup_cons] at hnd
    rcases List.mem_cons.mp ha with ha0 | ha1 <;>
      rcases List.mem_cons.mp hb with hb0 | hb1
    · exact congrArg Prod.snd (ha0.trans hb0.symm)
    · exfalso
      apply hnd.1
      rw [← ha0]
      exact List.mem_map.mpr ⟨(k, b), hb1, rfl⟩
    · exfalso
      apply hnd.1
      rw [← hb0]
      exact List.mem_map.mpr ⟨(k, a), ha1, rfl⟩
    · exact ih hnd.2 ha1 hb1

/-- All-positive id lists pass validation. -/
theorem validateIds_none (ids : List Int) (name : String)
    (h : ∀ i ∈ ids, 0 < i) : validateIds ids name = none := by
  rw [validateIds, List.findSome?_eq_none_iff]
  intro i hi
  have := h i hi
  simp [validateId]
  omega

/-- Setting a key stores its descriptor. -/
theorem getProp_setProp_self {V : Type} (o : JSObject V) (k : String) (d : PropDescriptor V) :
    getProp (setProp o k d) k = some d := by
  induction o with
  | nil => simp [setProp, getProp]
  | cons e es ih =>
    by_cases h : e.1 = k
    · simp [setProp, getProp, h]
    · simp [setProp, getProp, h, ih]

/-- Setting a key leaves other keys alone. -/
theorem getProp_setProp_ne {V : Type} (o : JSObject V) (k k2 : String) (d : PropDescriptor V)
    (h : k2 ≠ k) : getProp (setProp o k d) k2 = getProp o k2 := by
  induction o with
  | nil => simp [setProp, getProp, h, Ne.symm h]
  | cons e es ih =>
    by_cases he : e.1 = k
    · simp [setProp, getProp, he, h, Ne.symm h]
    · simp only [setProp, if_neg he, getProp]
      by_cases he2 : e.1 = k2 <;> simp [he2, ih]

/-- defineProperty leaves other keys alone. -/
theorem getProp_defineProperty_ne {V : Type} (o : JSObject V) (k k2 : String)
    (d : PropDescriptor V) (h : k2 ≠ k) :
    getProp (defineProperty o k d) k2 = getProp o k2 := by
  unfold defineProperty
  cases hg : getProp o k with
  | none => exact getProp_setProp_ne o k k2 d h
  | some existing =>
    by_cases hc : existing.configurable <;> simp [hc, getProp_setProp_ne o k k2 _ h]

/-- defineProperty on a fresh key stores its descriptor. -/
theorem getProp_defineProperty_fresh {V : Type} (o : JSObject V) (k : String)
    (d : PropDescriptor V) (h : getProp o k = none) :
    getProp (defineProperty o k d) k = some d := by
  unfold defineProperty
  rw [h]
  exact getProp_setProp_self o k d

/-- Attaching methods for other keys does not disturb a key. -/
theorem assignCapability_getProp_notmem {V : Type} (methods : List (String × V))
    (target : JSObject V) (k : String) (h : k ∉ methods.map Prod.fst) :
    getProp (assignCapability target methods) k = getProp target k := by
  induction methods generalizing target with
  | nil => rfl
  | cons m rest ih =>
    simp only [List.map_cons, List.mem_cons, not_or] at h
    simp only [assignCapability, List.foldl_cons]
    rw [show List.foldl (fun o kv => defineProperty o kv.1 ⟨kv.2, false, true, false⟩)
        (defineProperty target m.1 ⟨m.2, false, true, false⟩) rest =
      assignCapability (defineProperty target m.1 ⟨m.2, false, true, false⟩) rest from rfl]
    rw [ih _ h.2]
    exact getProp_defineProperty_ne _ _ _ _ h.1

/-- After a fresh `assignCapability`, every attached key holds a
non-writable, non-configurable descriptor. -/
theorem assignCapability_getProp_frozen {V : Type} (methods : List (String × V))
    (target : JSObject V) (k : String)
    (hnd : (methods.map Prod.fst).Nodup)
    (hmem : k ∈ methods.map Prod.fst)
    (hfresh : ∀ k2 ∈ methods.map Prod.fst, getProp target k2 = none) :
    ∃ val, getProp (assignCapability target methods) k = some ⟨val, false, true, false⟩ := by
  induction methods generalizing target with
  | nil => cases hmem
  | cons m rest ih =>
    simp only [List.map_cons, List.nodup_cons] at hnd
    simp only [assignCapability, List.foldl_cons]
    rw [show List.foldl (fun o kv => defineProperty o kv.1 ⟨kv.2, false, true, false⟩)
        (defineProperty target m.1 ⟨m.2, false, true, false⟩) rest =
      assignCapability (defineProperty target m.1 ⟨m.2, false, true, false⟩) rest from rfl]
    have hmem2 : k = m.1 ∨ k ∈ rest.map Prod.fst := by
      simpa [List.mem_cons] using hmem
    rcases hmem2 with hk | hk
    · refine ⟨m.2, ?_⟩
      rw [assignCapability_getProp_notmem rest _ k (by rw [hk]; exact hnd.1)]
      rw [hk]
      exact getProp_defineProperty_fresh _ _ _
        (hfresh m.1 (by simp))
    · refine ih _ hnd.2 hk ?_
      intro k2 hk2
      rw [getProp_defineProperty_ne]
      · exact hfresh k2 (by simp [hk2])
      · intro hc
        exact hnd.1 (hc ▸ hk2)

-- The claims.

/-- C1: for every principal, secret, function name and parameter map,
the signature returned by `buildSignedQuery` is identical whether the
auth mode is api-key or session-key; the two transmitted query strings
differ only in that session-key mode appends the literal suffix
`&authmode=sessionkey`, and the signature is the one computed over the
un-suffixed query. -/
theorem c1_signature_mode_independent (user secret functionName : String)
    (params : List (String × JSVal)) :
    (buildSignedQuery user secret AuthMode.sessionKey functionName params).2 =
      (buildSignedQuery user secret AuthMode.apiKey functionName params).2 ∧
    (buildSignedQuery user secret AuthMode.sessionKey functionName params).1 =
      (buildSignedQuery user secret AuthMode.apiKey functionName params).1 ++
        "&authmode=sessionkey" ∧
    (buildSignedQuery user secret AuthMode.apiKey functionName params).2 =
      generateSignature secret
        (buildSignedQuery user secret AuthMode.apiKey functionName params).1 :=
  ⟨rfl, rfl, rfl⟩

/-- C2: for every configuration, caller input and environment, the first
remote request of `createUser` is the account-creation primitive
carrying exactly the username and the configuration's signup usergroup
(never the caller's email, password, or a caller-supplied usergroup):
the first request is literally this two-entry map, and it is unchanged
when the caller's usergroup, email, password or fullname vary. -/
theorem c2_create_user_provision_request (cfg : RSConfig) (p : CreateUserParams)
    (env : Nat → CallResult) :
    ((createUser cfg p env).1.head? = some (TraceEvent.request "new_user"
      [("username", JSVal.str p.username),
       ("usergroup", JSVal.num (match cfg.signupUsergroup with
         | some g => g
         | none => 9))])) ∧
    (∀ callerGroup callerEmail callerPassword callerFullname,
      (createUser cfg
        ⟨p.username, callerEmail, callerFullname, callerPassword, callerGroup⟩
        env).1.head? = (createUser cfg p env).1.head?) := by
  refine ⟨createUser_head cfg p env, ?_⟩
  intro g e pw fn
  rw [createUser_head, createUser_head]

/-- C3: `saveUser` transmits exactly the caller's map restricted to the
allow-list consisting of fullname, email, password and comments (the
third conjunct spells the restriction out against the literal key
names); when the restriction is empty it raises the SecurityError
without issuing any remote call, and when non-empty it issues exactly
one save_user request whose `data` is the sanitized map as JSON. -/
theorem c3_save_user_allowlist (userRef : Int) (data : List (String × Option String))
    (env : Nat → CallResult) :
    (sanitizeUserUpdate data = [] →
      saveUser userRef data env = ([], SaveUserOutcome.securityError
        "No valid fields to update. Allowed fields: fullname, email, password, comments")) ∧
    (sanitizeUserUpdate data ≠ [] →
      (saveUser userRef data env).1 =
        [TraceEvent.request "save_user"
          [("ref", JSVal.str (toString userRef)),
           ("data", JSVal.str (jsonStringify (JValue.obj
             ((sanitizeUserUpdate data).map fun kv => (kv.1, JValue.str kv.2)))))]]) ∧
    sanitizeUserUpdate data = data.filterMap (fun kv =>
      match kv.2 with
      | some v =>
        if kv.1 = "fullname" ∨ kv.1 = "email" ∨ kv.1 = "password" ∨ kv.1 = "comments"
        then some (kv.1, v) else none
      | none => none) := by
  refine ⟨?_, ?_, ?_⟩
  · intro h
    simp only [saveUser, h]
    rfl
  · intro h
    have hne : (sanitizeUserUpdate data).isEmpty = false := by
      cases hs : sanitizeUserUpdate data with
      | nil => exact absurd hs h
      | cons a as => rfl
    cases henv : env 0 with
    | ok v => simp [saveUser, hne, henv]
    | err m => simp [saveUser, hne, henv]
  · induction data with
    | nil => rfl
    | cons kv rest ih =>
      cases hv : kv.2 with
      | none => simp [sanitizeUserUpdate, hv] at ih ⊢; exact ih
      | some v =>
        simp only [sanitizeUserUpdate, List.filterMap_cons, hv] at ih ⊢
        by_cases hmem : kv.1 = "fullname" ∨ kv.1 = "email" ∨ kv.1 = "password" ∨ kv.1 = "comments"
        · have hc : kv.1 ∈ SAVE_USER_ALLOWED_FIELDS := by
            simp only [SAVE_USER_ALLOWED_FIELDS]
            rcases hmem with h | h | h | h <;> simp [h]
          simp [hc, hmem]
          simpa using ih
        · have hc : kv.1 ∉ SAVE_USER_ALLOWED_FIELDS := by
            simp only [SAVE_USER_ALLOWED_FIELDS]
            push_neg at hmem
            simp [hmem.1, hmem.2.1, hmem.2.2.1, hmem.2.2.2]
          simp [hc, hmem]
          simpa using ih

/-- C3 witness: an all-disallowed map raises the SecurityError with no
remote call, and a mixed map transmits only the allow-listed field. -/
theorem c3_witness :
    saveUser 7 [("usergroup", some "1"), ("approved", some "1")]
      (fun _ => CallResult.ok JValue.null) =
      ([], SaveUserOutcome.securityError
        "No valid fields to update. Allowed fields: fullname, email, password, comments") ∧
    (saveUser 7 [("fullname", some "X"), ("usergroup", some "1"), ("approved", some "1")]
      (fun _ => CallResult.ok JValue.null)).1 =
      [TraceEvent.request "save_user"
        [("ref", JSVal.str "7"),
         ("data", JSVal.str "\x7b\"fullname\":\"X\"\x7d")]] :=
  ⟨(c3_save_user_allowlist 7 _ _).1 rfl,
   (c3_save_user_allowlist 7
     [("fullname", some "X"), ("usergroup", some "1"), ("approved", some "1")]
     (fun _ => CallResult.ok JValue.null)).2.1 (by decide)⟩

/-- C4: when the provisioning call yields a parseable ref and the
lock-down call fails on every attempt, `createUser` issues exactly
MAX_RETRIES (three) save_user attempts, sleeping 500 ms then 1000 ms
between them (linear backoff), and escalates a SecurityError whose
message names the orphaned reference id. -/
theorem c4_lockdown_retry_escalation (cfg : RSConfig) (p : CreateUserParams)
    (env : Nat → CallResult) (v : JValue) (ref : Int) (m1 m2 m3 : String)
    (h0 : env 0 = CallResult.ok v) (href : parseNewUserRef v = some ref)
    (h1 : env 1 = CallResult.err m1) (h2 : env 2 = CallResult.err m2)
    (h3 : env 3 = CallResult.err m3) :
    createUser cfg p env =
      ([TraceEvent.request "new_user"
          [("username", JSVal.str p.username),
           ("usergroup", JSVal.num (match cfg.signupUsergroup with
             | some g => g
             | none => 9))],
        TraceEvent.request "save_user" (createUserSaveParams p ref),
        TraceEvent.sleep 500,
        TraceEvent.request "save_user" (createUserSaveParams p ref),
        TraceEvent.sleep 1000,
        TraceEvent.request "save_user" (createUserSaveParams p ref)],
       CUOutcome.securityError (createUserFailureMsg ref m3)) ∧
    jsIncludes (createUserFailureMsg ref m3) (toString ref) = true := by
  constructor
  · unfold createUser
    rw [h0]
    simp only [href]
    simp [saveUserAttempts, h1, h2, h3, MAX_RETRIES, BACKOFF_BASE_MS]
  · exact createUserFailureMsg_names_ref ref m3

/-- C4 witness: a concrete run in which the provisioning call returns
ref 42 and every lock-down attempt fails. -/
theorem c4_witness :
    createUser ⟨"", "", AuthMode.apiKey, none, none⟩ ⟨"u", "e@x", none, none, none⟩
      (fun n => match n with
        | 0 => CallResult.ok (JValue.num 42)
        | _ => CallResult.err "boom") =
      ([TraceEvent.request "new_user"
          [("username", JSVal.str "u"), ("usergroup", JSVal.num 9)],
        TraceEvent.request "save_user"
          (createUserSaveParams ⟨"u", "e@x", none, none, none⟩ 42),
        TraceEvent.sleep 500,
        TraceEvent.request "save_user"
          (createUserSaveParams ⟨"u", "e@x", none, none, none⟩ 42),
        TraceEvent.sleep 1000,
        TraceEvent.request "save_user"
          (createUserSaveParams ⟨"u", "e@x", none, none, none⟩ 42)],
       CUOutcome.securityError (createUserFailureMsg 42 "boom")) ∧
    jsIncludes (createUserFailureMsg 42 "boom") (toString (42 : Int)) = true :=
  c4_lockdown_retry_escalation _ _ _ (JValue.num 42) 42 "boom" "boom" "boom"
    rfl rfl rfl rfl rfl

/-- C5 counterexample: `withUsers` attaches its methods with plain
`Object.assign` (src/unnamed/part_005 line 234), so the attached method
is writable: a subsequent write to the method name on the composed
client does change it (from value 1 to value 2), refuting the claim that
every capability-attachment function yields non-overridable methods. -/
theorem c5_counterexample :
    jsGet (withUsersAttach ([] : JSObject Nat) [("saveUser", 1)]) "saveUser" = some 1 ∧
    jsGet (jsSet (withUsersAttach ([] : JSObject Nat) [("saveUser", 1)]) "saveUser" 2)
      "saveUser" = some 2 := by
  constructor <;> rfl

/-- C5 amended: methods attached through `assignCapability` — the path
used by `withSearch` and the first `withBatch` variant, via
`withCapabilityAttach` — are non-overridable: attaching fresh,
distinctly-named methods defines them with `writable: false`, so a
subsequent write to an attached method name leaves the composed client
unchanged. (`withUsers` and the second `withBatch` variant attach with
`Object.assign` and remain overridable, per the counterexample.) -/
theorem c5_assign_capability_non_overridable {V : Type} (target : JSObject V)
    (methods : List (String × V)) (k : String) (v : V)
    (hnd : (methods.map Prod.fst).Nodup)
    (hmem : k ∈ methods.map Prod.fst)
    (hfresh : ∀ k2 ∈ methods.map Prod.fst, getProp target k2 = none) :
    jsSet (assignCapability target methods) k v = assignCapability target methods := by
  obtain ⟨val, hget⟩ := assignCapability_getProp_frozen methods target k hnd hmem hfresh
  unfold jsSet
  rw [hget]
  simp

/-- C5 witness: writing to a freshly attached `batchDelete` method on an
`assignCapability`-composed client leaves the client unchanged. -/
theorem c5_witness :
    jsSet (assignCapability ([] : JSObject Nat) [("batchDelete", 1)]) "batchDelete" 5 =
      assignCapability ([] : JSObject Nat) [("batchDelete", 1)] :=
  c5_assign_capability_non_overridable ([] : JSObject Nat) [("batchDelete", 1)]
    "batchDelete" 5 (by decide) (by decide) (by decide)

/-- C6 counterexample: the search call with query "landscape" and
options limit 10 / offset 5 issues a `do_search` request whose
`fetchrows` entry is 11 (the limit plus the extra has-more row), not 10
as claimed. -/
theorem c6_counterexample :
    (search "landscape" ⟨none, none, some 5, some 10, none, none, none⟩
      (fun _ => CallResult.ok JValue.null)).1 =
      [TraceEvent.request "do_search"
        [("search", JSVal.str "landscape"),
         ("order_by", JSVal.str "relevance"),
         ("offset", JSVal.num 5),
         ("fetchrows", JSVal.num 11)]] ∧
    lookupVal (searchParams "landscape" ⟨none, none, some 5, some 10, none, none, none⟩)
      "fetchrows" ≠ some (JSVal.num 10) := by
  constructor
  · rfl
  · decide

/-- C6 amended: a search for "landscape" with limit 10 and offset 5
issues one `do_search` request whose parameter map carries
order_by=relevance, offset=5 and fetchrows=11 (limit plus one extra row
for has-more detection), and carries no key literally named `limit`. -/
theorem c6_search_request (env : Nat → CallResult) :
    (search "landscape" ⟨none, none, some 5, some 10, none, none, none⟩ env).1 =
      [TraceEvent.request "do_search"
        [("search", JSVal.str "landscape"),
         ("order_by", JSVal.str "relevance"),
         ("offset", JSVal.num 5),
         ("fetchrows", JSVal.num 11)]] ∧
    lookupVal (searchParams "landscape" ⟨none, none, some 5, some 10, none, none, none⟩)
      "limit" = none := by
  constructor
  · unfold search
    cases env 0 <;> rfl
  · decide

/-- C7: for every function name, the normalizer maps null to null,
parses the JSON-encoded object string to the structured object, passes
the bare URL string through unchanged without raising, raises a
permission error on "Access denied" (the error scan runs before any
parse attempt — witnessed also by a JSON-parseable string carrying the
phrase, which still raises), and raises a general API error with detail
"x" on an object with an error field. -/
theorem c7_normalize_response_cases (f : String) :
    normalizeResponse JValue.null f = Except.ok JValue.null ∧
    normalizeResponse (JValue.str "\x7b\"ref\":42\x7d") f =
      Except.ok (JValue.obj [("ref", JValue.num 42)]) ∧
    normalizeResponse (JValue.str "https://host/path") f =
      Except.ok (JValue.str "https://host/path") ∧
    normalizeResponse (JValue.str "Access denied") f =
      Except.error (RSErr.permission f "Access denied") ∧
    normalizeResponse (JValue.str "\"Access denied\"") f =
      Except.error (RSErr.permission f "\"Access denied\"") ∧
    normalizeResponse (JValue.obj [("error", JValue.str "x")]) f =
      Except.error (RSErr.rsError "ResourceSpace API error: x" f "x") :=
  ⟨by rfl, by rfl, by rfl, by rfl, by rfl, by rfl⟩

/-- C8: in the canonical query entries, the principal comes first, every
key whose value is null or undefined is entirely absent from the rest of
the entries, and the remaining keys appear in insertion order after the
principal. -/
theorem c8_null_undefined_omitted (user : String) (params : List (String × JSVal))
    (hnd : (params.map Prod.fst).Nodup) :
    ((buildQueryEntries user params).head? = some ("user", user)) ∧
    ((buildQueryEntries user params).map Prod.fst =
      "user" :: (params.filter fun kv =>
        kv.2 != JSVal.null && kv.2 != JSVal.undef).map Prod.fst) ∧
    (∀ k, ((k, JSVal.null) ∈ params ∨ (k, JSVal.undef) ∈ params) →
      k ∉ ((buildQueryEntries user params).tail.map Prod.fst)) := by
  refine ⟨rfl, buildQueryEntries_keys user params, ?_⟩
  intro k hk hmem
  have htail : (buildQueryEntries user params).tail.map Prod.fst =
      (params.filter fun kv => kv.2 != JSVal.null && kv.2 != JSVal.undef).map Prod.fst := by
    have h := buildQueryEntries_keys user params
    have : ((buildQueryEntries user params).map Prod.fst).tail =
        (params.filter fun kv => kv.2 != JSVal.null && kv.2 != JSVal.undef).map Prod.fst := by
      rw [h]; rfl
    rw [← this, List.map_tail]
  rw [htail] at hmem
  obtain ⟨kv, hkvmem, hkvk⟩ := List.mem_map.mp hmem
  have hkvfil := List.mem_filter.mp hkvmem
  obtain ⟨k2, v2⟩ := kv
  simp only at hkvk
  subst hkvk
  rcases hk with hk | hk
  · have := keys_nodup_val_unique params hnd _ _ _ hkvfil.1 hk
    subst this
    simp at hkvfil
  · have := keys_nodup_val_unique params hnd _ _ _ hkvfil.1 hk
    subst this
    simp at hkvfil

/-- C8 witness: a concrete map with one null and one undefined entry. -/
theorem c8_witness :
    (buildQueryEntries "admin"
      [("a", JSVal.str "1"), ("b", JSVal.null), ("c", JSVal.undef), ("d", JSVal.num 2)]).head? =
      some ("user", "admin") ∧
    ((buildQueryEntries "admin"
      [("a", JSVal.str "1"), ("b", JSVal.null), ("c", JSVal.undef), ("d", JSVal.num 2)]).map
        Prod.fst =
      "user" :: ([("a", JSVal.str "1"), ("b", JSVal.null), ("c", JSVal.undef),
        ("d", JSVal.num 2)].filter fun kv =>
          kv.2 != JSVal.null && kv.2 != JSVal.undef).map Prod.fst) ∧
    (∀ k, ((k, JSVal.null) ∈ [("a", JSVal.str "1"), ("b", JSVal.null), ("c", JSVal.undef),
        ("d", JSVal.num 2)] ∨
      (k, JSVal.undef) ∈ [("a", JSVal.str "1"), ("b", JSVal.null), ("c", JSVal.undef),
        ("d", JSVal.num 2)]) →
      k ∉ ((buildQueryEntries "admin"
        [("a", JSVal.str "1"), ("b", JSVal.null), ("c", JSVal.undef),
         ("d", JSVal.num 2)]).tail.map Prod.fst)) :=
  c8_null_undefined_omitted "admin" _ (by decide)

/-- C9: every batch operation given an id list longer than the
configured maximum returns the BatchSizeLimitError carrying the
attempted size and the maximum with an empty trace (no remote call);
given a valid id list of length exactly the maximum, every operation
gets as far as issuing its remote call; and the ceiling defaults to 100
when unconfigured. -/
theorem c9_batch_limit (cfg : RSConfig) (env : Nat → CallResult)
    (ids nodeIds : List Int) (fieldId collectionId archiveStatus : Int) (value : String) :
    (ids.length > batchMax cfg →
      batchFieldUpdate cfg ids fieldId value env =
        ([], BatchOutcome.batchLimit ids.length (batchMax cfg)) ∧
      batchDelete cfg ids env = ([], BatchOutcome.batchLimit ids.length (batchMax cfg)) ∧
      batchCollectionAdd cfg collectionId ids env =
        ([], BatchOutcome.batchLimit ids.length (batchMax cfg)) ∧
      batchCollectionRemove cfg collectionId ids env =
        ([], BatchOutcome.batchLimit ids.length (batchMax cfg)) ∧
      batchNodesAdd cfg ids nodeIds env =
        ([], BatchOutcome.batchLimit ids.length (batchMax cfg)) ∧
      batchNodesRemove cfg ids nodeIds env =
        ([], BatchOutcome.batchLimit ids.length (batchMax cfg)) ∧
      batchArchiveStatus cfg ids archiveStatus env =
        ([], BatchOutcome.batchLimit ids.length (batchMax cfg))) ∧
    (ids.length = batchMax cfg → ids ≠ [] → (∀ i ∈ ids, 0 < i) → 0 < fieldId →
      0 < collectionId → (∀ n ∈ nodeIds, 0 < n) →
      issuedRemoteCall (batchFieldUpdate cfg ids fieldId value env) = true ∧
      issuedRemoteCall (batchDelete cfg ids env) = true ∧
      issuedRemoteCall (batchCollectionAdd cfg collectionId ids env) = true ∧
      issuedRemoteCall (batchCollectionRemove cfg collectionId ids env) = true ∧
      issuedRemoteCall (batchNodesAdd cfg ids nodeIds env) = true ∧
      issuedRemoteCall (batchNodesRemove cfg ids nodeIds env) = true ∧
      issuedRemoteCall (batchArchiveStatus cfg ids archiveStatus env) = true) ∧
    (cfg.maxBatchSize = none → batchMax cfg = 100) := by
  refine ⟨?_, ?_, ?_⟩
  · intro h
    have he : enforceLimit ids (batchMax cfg) =
        BatchCheck.sizeError ids.length (batchMax cfg) := by
      simp [enforceLimit, h]
    refine ⟨?_, ?_, ?_, ?_, ?_, ?_, ?_⟩ <;>
      simp [batchFieldUpdate, batchDelete, batchCollectionAdd, batchCollectionRemove,
        batchNodesAdd, batchNodesRemove, batchArchiveStatus, he]
  · intro hlen hne hpos hf hc hn
    have he : enforceLimit ids (batchMax cfg) = BatchCheck.ok := by
      simp [enforceLimit, hlen]
    have hv : validateIds ids "resource ID" = none := validateIds_none ids _ hpos
    have hvn : validateIds nodeIds "node ID" = none := validateIds_none nodeIds _ hn
    have hvf : validateId fieldId "field ID" = none := by simp [validateId]; omega
    have hvc : validateId collectionId "collection ID" = none := by simp [validateId]; omega
    obtain ⟨i0, rest, hids⟩ : ∃ i0 rest, ids = i0 :: rest := by
      cases ids with
      | nil => exact absurd rfl hne
      | cons a as => exact ⟨a, as, rfl⟩
    refine ⟨?_, ?_, ?_, ?_, ?_, ?_, ?_⟩ <;>
      simp only [batchFieldUpdate, batchDelete, batchCollectionAdd, batchCollectionRemove,
        batchNodesAdd, batchNodesRemove, batchArchiveStatus, he, hv, hvn, hvf, hvc] <;>
      subst hids <;>
      simp only [batchSingleRequest, batchPerIdLoop] <;>
      cases env 0 <;> rfl
  · intro h
    simp [batchMax, h]

/-- C9 witness: with a configured maximum of 2, three ids are rejected
with the sized error and no trace, two ids reach the remote call, and an
unconfigured maximum is 100. -/
theorem c9_witness :
    batchDelete ⟨"", "", AuthMode.apiKey, none, some 2⟩ [1, 2, 3]
      (fun _ => CallResult.ok JValue.null) = ([], BatchOutcome.batchLimit 3 2) ∧
    issuedRemoteCall (batchDelete ⟨"", "", AuthMode.apiKey, none, some 2⟩ [1, 2]
      (fun _ => CallResult.ok JValue.null)) = true ∧
    batchMax ⟨"", "", AuthMode.apiKey, none, none⟩ = 100 :=
  ⟨((c9_batch_limit ⟨"", "", AuthMode.apiKey, none, some 2⟩
      (fun _ => CallResult.ok JValue.null) [1, 2, 3] [1] 1 1 0 "v").1 (by decide)).2.1,
   ((c9_batch_limit ⟨"", "", AuthMode.apiKey, none, some 2⟩
      (fun _ => CallResult.ok JValue.null) [1, 2] [1] 1 1 0 "v").2.1 (by decide) (by decide)
      (by decide) (by decide) (by decide) (by decide)).2.1,
   (c9_batch_limit ⟨"", "", AuthMode.apiKey, none, none⟩
      (fun _ => CallResult.ok JValue.null) [] [] 1 1 0 "").2.2 rfl⟩

/-- C10: when the configuration does not set the signup usergroup,
`createUser` still issues the provisioning request, with the hard-coded
fallback usergroup 9. -/
theorem c10_default_usergroup (cfg : RSConfig) (p : CreateUserParams)
    (env : Nat → CallResult) (h : cfg.signupUsergroup = none) :
    (createUser cfg p env).1.head? = some (TraceEvent.request "new_user"
      [("username", JSVal.str p.username), ("usergroup", JSVal.num 9)]) ∧
    (createUser cfg p env).1 ≠ [] := by
  constructor
  · rw [createUser_head, h]
  · intro hnil
    have := createUser_head cfg p env
    rw [hnil] at this
    simp at this

/-- C10 witness: an unconfigured signup group on a concrete call. -/
theorem c10_witness :
    (createUser ⟨"", "", AuthMode.apiKey, none, none⟩ ⟨"newuser", "e@x.com", none, none, none⟩
      (fun _ => CallResult.ok (JValue.num 42))).1.head? = some (TraceEvent.request "new_user"
      [("username", JSVal.str "newuser"), ("usergroup", JSVal.num 9)]) ∧
    (createUser ⟨"", "", AuthMode.apiKey, none, none⟩ ⟨"newuser", "e@x.com", none, none, none⟩
      (fun _ => CallResult.ok (JValue.num 42))).1 ≠ [] :=
  c10_default_usergroup _ _ _ rfl
